import Mathlib

/-!
Verification development for the walkie-talkie relay server
(src/Backend/main.py): connection registry, sender arbitration,
broadcast relay, signaling relay and the channel directory, embedded
shallowly and checked against the design document.
-/

set_option linter.unusedVariables false

namespace WalkieTalkie

/-- Connections are opaque endpoints with reference identity; we model them
by natural-number identifiers. -/
abbrev Conn := Nat

/-- Channels are identified by their name. -/
abbrev Channel := String

/-- Python exceptions that the relevant code paths can raise:
`valueError` from `list.remove` on a missing element, `keyError` from
indexing a dict with a missing key, `typeError` from applying `in` or
subscripting to an unsuitable value, `integrityError` from a violated
SQLite UNIQUE constraint, and `connectionClosed` for a failed transport
send. -/
inductive PyError
  | valueError
  | keyError
  | typeError
  | integrityError
  | connectionClosed
deriving DecidableEq, Repr

/-! ### Python dict operations

`ConnectionManager.active_connections` is a Python dict from channel
name to list of websockets.  A dict keeps insertion order of its keys,
so we embed it as an association list and give the three accesses the
code performs: lookup (`d[k]` / `k in d`), in-place update of an
existing key, and `del` / `pop` of a key. -/

/-- Dict lookup: the value stored under key `ch`, if present. -/
def lookupKey {α : Type} (ch : String) : List (String × α) → Option α
  | [] => none
  | (k, v) :: rest => if k = ch then some v else lookupKey ch rest

/-- In-place update of the entry under key `ch` (position preserved, as
for assignment to an existing dict key). -/
def mapKey {α : Type} (ch : String) (f : α → α) : List (String × α) → List (String × α)
  | [] => []
  | (k, v) :: rest => if k = ch then (k, f v) :: rest else (k, v) :: mapKey ch f rest

/-- Removal of the entry under key `ch` (`del d[k]` / `d.pop(k)`). -/
def eraseKey {α : Type} (ch : String) : List (String × α) → List (String × α)
  | [] => []
  | (k, v) :: rest => if k = ch then rest else (k, v) :: eraseKey ch rest

/-! ### ConnectionManager state

`channel_senders` is a dict that the code only ever reads, writes and
pops at a single key, so we embed it as a function to `Option Conn`. -/

/-- State of the `ConnectionManager` instance in src/Backend/main.py. -/
structure ConnectionManager where
  active_connections : List (Channel × List Conn)
  channel_senders : Channel → Option Conn

/-- The fresh manager: `active_connections = {}`, `channel_senders = {}`. -/
def ConnectionManager.init : ConnectionManager :=
  { active_connections := [], channel_senders := fun _ => none }

/-- Members currently attached to `channel` (empty when the channel has
no live entry). -/
def ConnectionManager.membersOf (self : ConnectionManager) (channel : Channel) : List Conn :=
  (lookupKey channel self.active_connections).getD []

/-- Method `ConnectionManager.connect`: accept the websocket, create the
channel's entry if absent, then append the websocket to the channel's
list. -/
def ConnectionManager.connect (self : ConnectionManager) (websocket : Conn)
    (channel : Channel) : ConnectionManager :=
  let ac :=
    match lookupKey channel self.active_connections with
    | none => self.active_connections ++ [(channel, [])]
    | some _ => self.active_connections
  { self with active_connections := mapKey channel (fun l => l ++ [websocket]) ac }

/-- Method `ConnectionManager.disconnect`: when the channel has a live entry,
remove the websocket from its list (Python `list.remove` raises
`ValueError` when the element is absent), drop the entry when the list
became empty, and pop the sender slot when this websocket held it. -/
def ConnectionManager.disconnect (self : ConnectionManager) (websocket : Conn)
    (channel : Channel) : Except PyError ConnectionManager :=
  match lookupKey channel self.active_connections with
  | none => .ok self
  | some members =>
    if websocket ∈ members then
      let members' := members.erase websocket
      let ac :=
        if members' = [] then eraseKey channel self.active_connections
        else mapKey channel (fun _ => members') self.active_connections
      let cs :=
        if self.channel_senders channel = some websocket then
          fun ch => if ch = channel then none else self.channel_senders ch
        else self.channel_senders
      .ok { active_connections := ac, channel_senders := cs }
    else .error .valueError

/-- Method `ConnectionManager.set_sender`: grant the slot iff the channel has
no recorded sender; otherwise return `False` without changing state. -/
def ConnectionManager.set_sender (self : ConnectionManager) (websocket : Conn)
    (channel : Channel) : ConnectionManager × Bool :=
  match self.channel_senders channel with
  | none =>
    ({ self with
        channel_senders := fun ch =>
          if ch = channel then some websocket else self.channel_senders ch },
      true)
  | some _ => (self, false)

/-- Method `ConnectionManager.clear_sender`: pop the slot iff this websocket is
the recorded sender of the channel. -/
def ConnectionManager.clear_sender (self : ConnectionManager) (websocket : Conn)
    (channel : Channel) : ConnectionManager :=
  if self.channel_senders channel = some websocket then
    { self with
        channel_senders := fun ch =>
          if ch = channel then none else self.channel_senders ch }
  else self

/-! ### Sends

Transport sends can fail; a run of the system is parameterised by which
connections' sends fail (`fails`).  `websocket.send_bytes` /
`websocket.send_text` raise on failure; the code wraps every per-recipient
send in `try/except`. -/

/-- A raw binary send: raises when the recipient's transport is broken. -/
def send_bytes (fails : Conn → Bool) (connection : Conn) : Except PyError Unit :=
  if fails connection then .error .connectionClosed else .ok ()

/-- A raw text send: raises when the recipient's transport is broken. -/
def send_text (fails : Conn → Bool) (websocket : Conn) : Except PyError Unit :=
  if fails websocket then .error .connectionClosed else .ok ()

/-- Method `ConnectionManager.send_message`: the send is wrapped in
`try/except`, so a failure is logged and swallowed; the result records
whether delivery succeeded. -/
def ConnectionManager.send_message (fails : Conn → Bool) (message : String)
    (websocket : Conn) : Bool :=
  match send_text fails websocket with
  | .ok _ => true
  | .error _ => false

/-- One iteration of the loop body of `ConnectionManager.broadcast`:
skip the sender, otherwise attempt the send, catching (and logging) a
failure, and record the attempt with its outcome. -/
def broadcastStep (fails : Conn → Bool) (sender : Conn)
    (acc : List (Conn × Bool)) (connection : Conn) : List (Conn × Bool) :=
  if connection ≠ sender then
    match send_bytes fails connection with
    | .ok _ => acc ++ [(connection, true)]
    | .error _ => acc ++ [(connection, false)]
  else acc

/-- Method `ConnectionManager.broadcast`: iterate over the channel's members,
attempting a binary send to every member other than the sender.  Returns
the list of attempted deliveries with their outcomes, in order. -/
def ConnectionManager.broadcast (fails : Conn → Bool) (self : ConnectionManager)
    (channel : Channel) (sender : Conn) : List (Conn × Bool) :=
  match lookupKey channel self.active_connections with
  | some members => members.foldl (broadcastStep fails sender) []
  | none => []

/-! ### JSON payloads

The signaling branch runs `json.loads` on the text payload and then
tests `"type" in data` and compares `data["type"]` against the three
recognized signaling types.  `json.loads` can return any JSON value, and
Python's `in` and subscript operators behave differently (or raise
`TypeError`) depending on that value's kind. -/

/-- A decoded JSON value as returned by `json.loads`. -/
inductive PyJson
  | obj (fields : List (String × PyJson))
  | arr (elems : List PyJson)
  | str (s : String)
  | num (n : Int)
  | boolean (b : Bool)
  | null
deriving Repr

/-- Python `==` between a JSON value and a string: strings compare by
content, every other kind compares unequal (no error). -/
def jsonEqStr (j : PyJson) (s : String) : Bool :=
  match j with
  | .str t => t == s
  | _ => false

/-- Python `s.startswith(pre)`. -/
def pyStartsWith (s pre : String) : Bool := pre.data.isPrefixOf s.data

/-- Loop of `pySplit` on the character list, with a fuel argument for
structural recursion (the fuel never runs out when it starts at the
length of the list, since every step consumes at least one character). -/
def pySplitChars (sep : List Char) : Nat → List Char → List (List Char)
  | _, [] => [[]]
  | 0, s => [s]
  | fuel + 1, c :: rest =>
    if sep.isPrefixOf (c :: rest) then
      [] :: pySplitChars sep fuel ((c :: rest).drop sep.length)
    else
      match pySplitChars sep fuel rest with
      | [] => [[c]]
      | head :: tail => (c :: head) :: tail

/-- Python `s.split(sep)` with a non-empty separator: cut at every
non-overlapping occurrence of `sep`, scanning left to right. -/
def pySplit (s sep : String) : List String :=
  (pySplitChars sep.data s.data.length s.data).map (fun l => String.mk l)

/-- Python substring containment `needle in hay` for strings. -/
def strContainsSubstr (needle hay : String) : Bool :=
  (List.range (hay.length + 1)).any (fun i => needle.data.isPrefixOf (hay.data.drop i))

/-- Python `key in data`: key membership for a dict, element membership
for a list, substring test for a string, and `TypeError` for any other
value (`argument of type 'int' is not iterable`). -/
def pyContains (key : String) : PyJson → Except PyError Bool
  | .obj fields => .ok (lookupKey key fields).isSome
  | .arr elems => .ok (elems.any (fun e => jsonEqStr e key))
  | .str s => .ok (strContainsSubstr key s)
  | _ => .error .typeError

/-- Python `data[key]` with a string key: field access for a dict
(`KeyError` when absent), `TypeError` for every other value. -/
def pyIndex : PyJson → String → Except PyError PyJson
  | .obj fields, key =>
    match lookupKey key fields with
    | some v => .ok v
    | none => .error .keyError
  | _, _ => .error .typeError

/-! ### The per-connection handlers

Each handler loop iteration processes one received frame.  We embed one
iteration of each branch as a function from the shared state (and the
frame) to the updated state together with the list of attempted text or
binary deliveries `(recipient, payload/outcome)`, or a raised Python
error. -/

/-- The `"bytes"` branch shared by `websocket_endpoint` and
`websocket_control`: relay the frame through
`ConnectionManager.broadcast` when this websocket is the channel's
recorded sender, otherwise log and drop it.  Returns the (unchanged)
manager and the attempted deliveries. -/
def websocket_endpoint_bytes (fails : Conn → Bool) (manager : ConnectionManager)
    (websocket : Conn) (channel : Channel) :
    ConnectionManager × List (Conn × Bool) :=
  if manager.channel_senders channel = some websocket then
    (manager, ConnectionManager.broadcast fails manager channel websocket)
  else
    (manager, [])

/-- The `"text"` branch of `websocket_endpoint`: `loadsResult` is the
outcome of `json.loads(text_data)` (`none` when it raised
`JSONDecodeError`, which the handler catches).  A recognized signaling
type is forwarded verbatim to every other member of the channel via
`send_message`; an unrecognized type, a payload without `"type"`, and a
non-decodable payload are dropped. -/
def websocket_endpoint_text (fails : Conn → Bool) (manager : ConnectionManager)
    (websocket : Conn) (channel : Channel) (text_data : String)
    (loadsResult : Option PyJson) : Except PyError (List (Conn × String)) :=
  match loadsResult with
  | none => .ok []
  | some data =>
    match pyContains "type" data with
    | .error e => .error e
    | .ok hasType =>
      if hasType then
        match pyIndex data "type" with
        | .error e => .error e
        | .ok t =>
          if jsonEqStr t "iceCandidate" || jsonEqStr t "offer" || jsonEqStr t "answer" then
            match lookupKey channel manager.active_connections with
            | none => .error .keyError
            | some members =>
              .ok ((members.filter (fun c => c ≠ websocket)).map
                (fun c => (c, text_data)))
          else .ok []
      else .ok []

/-! ### Channel directory

`init_db` creates the in-memory SQLite table `channels` with a UNIQUE
name column and seeds it with one row, `"Default"`.  We embed the table
as the list of names in insertion (rowid) order. -/

/-- The directory produced by `init_db`: the `channels` table holding
the seeded row `"Default"`. -/
def init_db : List String := ["Default"]

/-- The `/api/channels` query: `SELECT name FROM channels`. -/
def get_channels (db : List String) : List String := db

/-- Statement `INSERT INTO channels (name) VALUES (?)`: the UNIQUE constraint
raises `IntegrityError` on a duplicate, otherwise the row is appended. -/
def db_insert_channel (db : List String) (name : String) :
    Except PyError (List String) :=
  if name ∈ db then .error .integrityError else .ok (db ++ [name])

/-- Every connection attached to any channel, in dict-iteration order
(the nested loop of the `new_channel` broadcast in
`websocket_control`). -/
def ConnectionManager.allConnections (self : ConnectionManager) : List Conn :=
  (self.active_connections.map (fun p => p.2)).flatten

/-- The `"text"` branch of `websocket_control`: dispatch on the command
literal.  `new_channel:<name>` inserts into the directory and broadcasts
to every connection on every channel, with a duplicate name caught as
`IntegrityError` and ignored; `start` drives
`ConnectionManager.set_sender` and acknowledges `start_ack` or `busy`;
`stop` drives `ConnectionManager.clear_sender` and acknowledges
`stop_ack`; `join_channel` notifies the other members; anything else
falls through with no action. -/
def websocket_control_text (fails : Conn → Bool) (db : List String)
    (manager : ConnectionManager) (websocket : Conn) (channel : Channel)
    (data : String) :
    Except PyError (List String × ConnectionManager × List (Conn × String)) :=
  if pyStartsWith data "new_channel:" then
    let new_channel := (pySplit data "new_channel:").getD 1 ""
    match db_insert_channel db new_channel with
    | .ok db' =>
      .ok (db', manager,
        manager.allConnections.map (fun c => (c, "new_channel:" ++ new_channel)))
    | .error _ => .ok (db, manager, [])
  else if data = "start" then
    match manager.set_sender websocket channel with
    | (m, true) => .ok (db, m, [(websocket, "start_ack")])
    | (m, false) => .ok (db, m, [(websocket, "busy")])
  else if data = "stop" then
    .ok (db, manager.clear_sender websocket channel, [(websocket, "stop_ack")])
  else if data = "join_channel" then
    match lookupKey channel manager.active_connections with
    | none => .error .keyError
    | some members =>
      .ok (db, manager,
        (members.filter (fun c => c ≠ websocket)).map
          (fun c => (c, "peer_joined:" ++ toString websocket)))
  else .ok (db, manager, [])

/-! ### Handler exit paths

Both endpoint handlers end in

  except WebSocketDisconnect: manager.disconnect(websocket, channel)
  finally: manager.disconnect(websocket, channel)

so an exit via `WebSocketDisconnect` runs `disconnect` twice (the
`except` block and then the `finally` block), while an exit via the
caught `RuntimeError` (`break`) runs it once.  When the first call
raises, it has mutated nothing (`list.remove` is its first mutation), so
the `finally` call fails identically on the same state and that error
propagates. -/

/-- How the handler's receive loop was left. -/
inductive ExitKind
  | wsDisconnect
  | runtimeBreak
deriving DecidableEq, Repr

/-- The disconnect cleanup actually executed by `websocket_endpoint`
(and `websocket_control`) for each exit path. -/
def websocket_endpoint_cleanup (manager : ConnectionManager) (websocket : Conn)
    (channel : Channel) (k : ExitKind) : Except PyError ConnectionManager :=
  match k with
  | .runtimeBreak => manager.disconnect websocket channel
  | .wsDisconnect =>
    match manager.disconnect websocket channel with
    | .ok m1 => m1.disconnect websocket channel
    | .error e => .error e

/-- Modelled from the spec: the unified control endpoint.  The spec
states that "some revisions unify both into the single control endpoint;
an implementation must support at least the unified form", and the
client in src/Backend/test.py indeed speaks to a unified `/ws/control`
endpoint, but no such server revision is under src/: main.py splits
signaling (`websocket_endpoint`) from commands (`websocket_control`),
and its control endpoint ignores signaling text.  Per the spec the
unified handler dispatches the command literals exactly as
`websocket_control` does, and any other text payload runs the signaling
forward of `websocket_endpoint`'s text branch — delivery to
`MembersExcept(channel, origin)` with no sender-slot check. -/
def unified_control_text (fails : Conn → Bool) (db : List String)
    (manager : ConnectionManager) (websocket : Conn) (channel : Channel)
    (data : String) (loadsResult : Option PyJson) :
    Except PyError (List String × ConnectionManager × List (Conn × String)) :=
  if pyStartsWith data "new_channel:" || data = "start" || data = "stop"
      || data = "join_channel" then
    websocket_control_text fails db manager websocket channel data
  else
    (websocket_endpoint_text fails manager websocket channel data loadsResult).map
      (fun sends => (db, manager, sends))

/-! ### The handler-driven transition system

One handler task runs per attached connection, from
`manager.connect(websocket, channel)` to the disconnect cleanup, and
every manager operation the server performs is issued by one of these
tasks on its own `(websocket, channel)` pair.  We record the live tasks
as sessions; a step is one atomic manager operation as the handlers
perform them. -/

/-- The manager state a disconnect call leaves behind: `disconnect`
mutates the shared dicts in place, but its only fallible statement
(`list.remove`) is also its first mutation, so a raising call leaves the
state unchanged. -/
def ConnectionManager.disconnectRun (self : ConnectionManager) (websocket : Conn)
    (channel : Channel) : ConnectionManager :=
  match self.disconnect websocket channel with
  | .ok m => m
  | .error _ => self

/-- The manager state left behind by `websocket_endpoint_cleanup`: the
`WebSocketDisconnect` path runs `disconnect` in the `except` block and
again in the `finally` block, the `break` path only in `finally`. -/
def ConnectionManager.cleanupRun (self : ConnectionManager) (websocket : Conn)
    (channel : Channel) : ExitKind → ConnectionManager
  | .runtimeBreak => self.disconnectRun websocket channel
  | .wsDisconnect => (self.disconnectRun websocket channel).disconnectRun websocket channel

/-- Global server state: the shared manager plus the set of live handler
sessions (each a connection bound to the channel from its path). -/
structure SysState where
  mgr : ConnectionManager
  sessions : List (Conn × Channel)

/-- Process start: empty manager, no sessions. -/
def SysState.init : SysState := ⟨ConnectionManager.init, []⟩

/-- One atomic manager operation, as issued by the per-connection
handler tasks.  A new websocket object has reference identity, so an
attaching connection equals no live one; `start`, `stop` and the
disconnect cleanup are only ever executed by a live handler on its own
connection and channel. -/
inductive Step : SysState → SysState → Prop
  | attach (σ : SysState) (c : Conn) (ch : Channel)
      (hfresh : ∀ p ∈ σ.sessions, p.1 ≠ c) :
      Step σ ⟨σ.mgr.connect c ch, (c, ch) :: σ.sessions⟩
  | start (σ : SysState) (c : Conn) (ch : Channel)
      (hs : (c, ch) ∈ σ.sessions) :
      Step σ ⟨(σ.mgr.set_sender c ch).1, σ.sessions⟩
  | stop (σ : SysState) (c : Conn) (ch : Channel)
      (hs : (c, ch) ∈ σ.sessions) :
      Step σ ⟨σ.mgr.clear_sender c ch, σ.sessions⟩
  | detach (σ : SysState) (c : Conn) (ch : Channel) (k : ExitKind)
      (hs : (c, ch) ∈ σ.sessions) :
      Step σ ⟨σ.mgr.cleanupRun c ch k, σ.sessions.erase (c, ch)⟩
  | passive (σ : SysState) : Step σ σ

/-- The states reachable from process start by handler steps. -/
inductive Reach : SysState → Prop
  | init : Reach SysState.init
  | step {σ σ' : SysState} (h : Reach σ) (hs : Step σ σ') : Reach σ'

/-- The inductive invariant: no connection runs two handler loops at
once, every live session's connection is attached to its channel, and a
channel's recorded sender is attached to that channel. -/
structure Inv (σ : SysState) : Prop where
  sessions_nodup : (σ.sessions.map Prod.fst).Nodup
  session_mem : ∀ p ∈ σ.sessions, p.1 ∈ σ.mgr.membersOf p.2
  sender_mem : ∀ ch c, σ.mgr.channel_senders ch = some c → c ∈ σ.mgr.membersOf ch

/-! ### Dict lemmas -/

theorem lookupKey_mapKey_self {α : Type} (ch : String) (f : α → α)
    (d : List (String × α)) :
    lookupKey ch (mapKey ch f d) = (lookupKey ch d).map f := by
  induction d with
  | nil => rfl
  | cons p rest ih =>
    obtain ⟨k, v⟩ := p
    by_cases h : k = ch
    · simp [mapKey, lookupKey, h]
    · simp [mapKey, lookupKey, h, ih]

theorem lookupKey_mapKey_ne {α : Type} (ch ch' : String) (f : α → α)
    (d : List (String × α)) (h : ch' ≠ ch) :
    lookupKey ch' (mapKey ch f d) = lookupKey ch' d := by
  induction d with
  | nil => rfl
  | cons p rest ih =>
    obtain ⟨k, v⟩ := p
    by_cases hk : k = ch
    · subst hk
      simp [mapKey, lookupKey, Ne.symm h]
    · by_cases hk' : k = ch'
      · simp [mapKey, lookupKey, hk, hk', h]
      · simp [mapKey, lookupKey, hk, hk', ih]

theorem lookupKey_eraseKey_ne {α : Type} (ch ch' : String)
    (d : List (String × α)) (h : ch' ≠ ch) :
    lookupKey ch' (eraseKey ch d) = lookupKey ch' d := by
  induction d with
  | nil => rfl
  | cons p rest ih =>
    obtain ⟨k, v⟩ := p
    by_cases hk : k = ch
    · subst hk
      simp [eraseKey, lookupKey, Ne.symm h]
    · by_cases hk' : k = ch'
      · simp [eraseKey, lookupKey, hk, hk', h]
      · simp [eraseKey, lookupKey, hk, hk', ih]

theorem lookupKey_append {α : Type} (ch : String) (d d' : List (String × α)) :
    lookupKey ch (d ++ d') =
      match lookupKey ch d with
      | some v => some v
      | none => lookupKey ch d' := by
  induction d with
  | nil => rfl
  | cons p rest ih =>
    obtain ⟨k, v⟩ := p
    by_cases h : k = ch
    · simp [lookupKey, h]
    · simp [lookupKey, h, ih]

/-! ### Manager operation lemmas -/

theorem membersOf_eq_of_lookup {m : ConnectionManager} {ch : Channel}
    {members : List Conn} (hl : lookupKey ch m.active_connections = some members) :
    m.membersOf ch = members := by
  simp [ConnectionManager.membersOf, hl]

theorem membersOf_connect_self (m : ConnectionManager) (c : Conn) (ch : Channel) :
    (m.connect c ch).membersOf ch = m.membersOf ch ++ [c] := by
  unfold ConnectionManager.connect ConnectionManager.membersOf
  cases hl : lookupKey ch m.active_connections with
  | none =>
    simp only [hl]
    rw [lookupKey_mapKey_self, lookupKey_append, hl]
    simp [lookupKey]
  | some l =>
    simp only [hl]
    rw [lookupKey_mapKey_self, hl]
    simp

theorem membersOf_connect_ne (m : ConnectionManager) (c : Conn) (ch ch' : Channel)
    (h : ch' ≠ ch) :
    (m.connect c ch).membersOf ch' = m.membersOf ch' := by
  unfold ConnectionManager.connect ConnectionManager.membersOf
  cases hl : lookupKey ch m.active_connections with
  | none =>
    simp only [hl]
    rw [lookupKey_mapKey_ne _ _ _ _ h, lookupKey_append]
    cases hl' : lookupKey ch' m.active_connections with
    | none => simp [lookupKey, Ne.symm h]
    | some l' => simp
  | some l =>
    simp only [hl]
    rw [lookupKey_mapKey_ne _ _ _ _ h]

theorem channel_senders_connect (m : ConnectionManager) (c : Conn) (ch : Channel) :
    (m.connect c ch).channel_senders = m.channel_senders := rfl

theorem mem_membersOf_connect {m : ConnectionManager} {c' : Conn} {ch' : Channel}
    (c : Conn) (ch : Channel) (h : c' ∈ m.membersOf ch') :
    c' ∈ (m.connect c ch).membersOf ch' := by
  by_cases hch : ch' = ch
  · subst hch
    rw [membersOf_connect_self]
    exact List.mem_append_left _ h
  · rwa [membersOf_connect_ne _ _ _ _ hch]

theorem membersOf_set_sender (m : ConnectionManager) (c : Conn) (ch ch' : Channel) :
    ((m.set_sender c ch).1).membersOf ch' = m.membersOf ch' := by
  unfold ConnectionManager.set_sender
  cases m.channel_senders ch <;> rfl

theorem membersOf_clear_sender (m : ConnectionManager) (c : Conn) (ch ch' : Channel) :
    (m.clear_sender c ch).membersOf ch' = m.membersOf ch' := by
  unfold ConnectionManager.clear_sender
  by_cases h : m.channel_senders ch = some c <;> simp [h, ConnectionManager.membersOf]

/-- One (possibly raising) disconnect call preserves the session and
sender invariants of a session list from which the disconnecting pair
has already been removed. -/
theorem disconnectRun_inv (m : ConnectionManager) (sess : List (Conn × Channel))
    (c : Conn) (ch : Channel)
    (h2 : ∀ p ∈ sess, p.1 ∈ m.membersOf p.2)
    (h3 : ∀ ch' c', m.channel_senders ch' = some c' → c' ∈ m.membersOf ch')
    (hnotin : ∀ p ∈ sess, p ≠ (c, ch)) :
    (∀ p ∈ sess, p.1 ∈ (m.disconnectRun c ch).membersOf p.2) ∧
    (∀ ch' c', (m.disconnectRun c ch).channel_senders ch' = some c' →
      c' ∈ (m.disconnectRun c ch).membersOf ch') := by
  unfold ConnectionManager.disconnectRun ConnectionManager.disconnect
  cases hl : lookupKey ch m.active_connections with
  | none => exact ⟨h2, h3⟩
  | some members =>
    by_cases hc : c ∈ members
    · simp only [hc, if_pos]
      have hmem : m.membersOf ch = members := membersOf_eq_of_lookup hl
      by_cases he : members.erase c = []
      · -- the channel entry is dropped
        simp only [he, if_pos]
        constructor
        · intro p hp
          by_cases hp2 : p.2 = ch
          · exfalso
            have hp1 : p.1 ≠ c := by
              intro hp1
              exact hnotin p hp (Prod.ext hp1 hp2)
            have hpe : p.1 ∈ members.erase c := by
              rw [List.mem_erase_of_ne hp1]
              have := h2 p hp
              rwa [hp2, hmem] at this
            rw [he] at hpe
            exact (List.not_mem_nil _) hpe
          · have := h2 p hp
            simpa [ConnectionManager.membersOf, lookupKey_eraseKey_ne ch p.2 _ hp2]
              using this
        · intro ch' c' hc'
          by_cases hs : m.channel_senders ch = some c
          · simp only [if_pos hs] at hc'
            by_cases hch' : ch' = ch
            · rw [if_pos hch'] at hc'
              exact absurd hc' (by simp)
            · rw [if_neg hch'] at hc'
              have := h3 ch' c' hc'
              simpa [ConnectionManager.membersOf, lookupKey_eraseKey_ne ch ch' _ hch']
                using this
          · simp only [if_neg hs] at hc'
            by_cases hch' : ch' = ch
            · exfalso
              have hc'' : m.channel_senders ch = some c' := hch' ▸ hc'
              have hcc : c' ≠ c := by
                intro hcc
                exact hs (hcc ▸ hc'')
              have hce : c' ∈ members.erase c := by
                rw [List.mem_erase_of_ne hcc]
                have := h3 ch c' hc''
                rwa [hmem] at this
              rw [he] at hce
              exact (List.not_mem_nil _) hce
            · have := h3 ch' c' hc'
              simpa [ConnectionManager.membersOf, lookupKey_eraseKey_ne ch ch' _ hch']
                using this
      · -- the channel entry keeps the shortened list
        simp only [he, if_neg]
        have hafter : ∀ ch'', ch'' ≠ ch →
            (lookupKey ch'' (mapKey ch (fun _ => members.erase c) m.active_connections)) =
              lookupKey ch'' m.active_connections :=
          fun ch'' h => lookupKey_mapKey_ne ch ch'' _ _ h
        have hat : lookupKey ch (mapKey ch (fun _ => members.erase c) m.active_connections)
            = some (members.erase c) := by
          rw [lookupKey_mapKey_self, hl]
          rfl
        constructor
        · intro p hp
          by_cases hp2 : p.2 = ch
          · have hp1 : p.1 ≠ c := by
              intro hp1
              exact hnotin p hp (Prod.ext hp1 hp2)
            have hpe : p.1 ∈ members.erase c := by
              rw [List.mem_erase_of_ne hp1]
              have := h2 p hp
              rwa [hp2, hmem] at this
            simp [ConnectionManager.membersOf, hp2, hat, hpe]
          · have := h2 p hp
            simpa [ConnectionManager.membersOf, hafter p.2 hp2] using this
        · intro ch' c' hc'
          by_cases hs : m.channel_senders ch = some c
          · simp only [if_pos hs] at hc'
            by_cases hch' : ch' = ch
            · rw [if_pos hch'] at hc'
              exact absurd hc' (by simp)
            · rw [if_neg hch'] at hc'
              have := h3 ch' c' hc'
              simpa [ConnectionManager.membersOf, hafter ch' hch'] using this
          · simp only [if_neg hs] at hc'
            by_cases hch' : ch' = ch
            · have hc'' : m.channel_senders ch = some c' := hch' ▸ hc'
              have hcc : c' ≠ c := by
                intro hcc
                exact hs (hcc ▸ hc'')
              have hce : c' ∈ members.erase c := by
                rw [List.mem_erase_of_ne hcc]
                have := h3 ch c' hc''
                rwa [hmem] at this
              rw [hch']
              simp [ConnectionManager.membersOf, hat, hce]
            · have := h3 ch' c' hc'
              simpa [ConnectionManager.membersOf, hafter ch' hch'] using this
    · simp only [hc, if_neg]
      exact ⟨h2, h3⟩

/-- Every handler step preserves the invariant. -/
theorem inv_preserved {σ σ' : SysState} (hstep : Step σ σ') (hinv : Inv σ) : Inv σ' := by
  obtain ⟨h1, h2, h3⟩ := hinv
  cases hstep with
  | attach c ch hfresh =>
    refine ⟨?_, ?_, ?_⟩
    · simp only [List.map_cons]
      rw [List.nodup_cons]
      refine ⟨?_, h1⟩
      intro hmem
      obtain ⟨p, hp, hpe⟩ := List.mem_map.mp hmem
      exact hfresh p hp hpe
    · intro p hp
      rcases List.mem_cons.mp hp with hp | hp
      · subst hp
        rw [membersOf_connect_self]
        simp
      · exact mem_membersOf_connect c ch (h2 p hp)
    · intro ch' c' hc'
      rw [channel_senders_connect] at hc'
      exact mem_membersOf_connect c ch (h3 ch' c' hc')
  | start c ch hs =>
    cases hsd : σ.mgr.channel_senders ch with
    | some d =>
      have heq : (σ.mgr.set_sender c ch).1 = σ.mgr := by
        simp [ConnectionManager.set_sender, hsd]
      rw [heq]
      exact ⟨h1, h2, h3⟩
    | none =>
      refine ⟨h1, ?_, ?_⟩
      · intro p hp
        rw [membersOf_set_sender]
        exact h2 p hp
      · intro ch' c' hc'
        simp only [ConnectionManager.set_sender, hsd] at hc'
        rw [membersOf_set_sender]
        by_cases hch' : ch' = ch
        · rw [if_pos hch'] at hc'
          have hcc : c' = c := by
            injection hc' with h
            exact h.symm
          subst hcc
          subst hch'
          exact h2 (c', ch') hs
        · rw [if_neg hch'] at hc'
          exact h3 ch' c' hc'
  | stop c ch hs =>
    by_cases hcs : σ.mgr.channel_senders ch = some c
    · refine ⟨h1, ?_, ?_⟩
      · intro p hp
        rw [membersOf_clear_sender]
        exact h2 p hp
      · intro ch' c' hc'
        simp only [ConnectionManager.clear_sender, hcs, if_pos] at hc'
        rw [membersOf_clear_sender]
        by_cases hch' : ch' = ch
        · rw [if_pos hch'] at hc'
          exact absurd hc' (by simp)
        · rw [if_neg hch'] at hc'
          exact h3 ch' c' hc'
    · have heq : σ.mgr.clear_sender c ch = σ.mgr := by
        simp [ConnectionManager.clear_sender, hcs]
      rw [heq]
      exact ⟨h1, h2, h3⟩
  | detach c ch k hs =>
    have hsessnd : σ.sessions.Nodup := List.Nodup.of_map _ h1
    have hsub : List.Sublist (σ.sessions.erase (c, ch)) σ.sessions := List.erase_sublist _ _
    have hnd' : ((σ.sessions.erase (c, ch)).map Prod.fst).Nodup :=
      List.Nodup.sublist (hsub.map Prod.fst) h1
    have hnotin : ∀ p ∈ σ.sessions.erase (c, ch), p ≠ (c, ch) :=
      fun p hp => (hsessnd.mem_erase_iff.mp hp).1
    have h2' : ∀ p ∈ σ.sessions.erase (c, ch), p.1 ∈ σ.mgr.membersOf p.2 :=
      fun p hp => h2 p (List.mem_of_mem_erase hp)
    have step1 := disconnectRun_inv σ.mgr (σ.sessions.erase (c, ch)) c ch h2' h3 hnotin
    cases k with
    | runtimeBreak => exact ⟨hnd', step1.1, step1.2⟩
    | wsDisconnect =>
      have step2 := disconnectRun_inv (σ.mgr.disconnectRun c ch)
        (σ.sessions.erase (c, ch)) c ch step1.1 step1.2 hnotin
      exact ⟨hnd', step2.1, step2.2⟩
  | passive => exact ⟨h1, h2, h3⟩

/-- Every reachable state satisfies the invariant. -/
theorem reach_inv {σ : SysState} (h : Reach σ) : Inv σ := by
  induction h with
  | init =>
    refine ⟨List.nodup_nil, ?_, ?_⟩
    · intro p hp
      exact absurd hp (List.not_mem_nil p)
    · intro ch c hc
      exact absurd hc (by simp [SysState.init, ConnectionManager.init])
  | step h hs ih => exact inv_preserved hs ih

/-! ### Concrete states used by the witnesses -/

/-- A concrete manager: connection 0 attached to channel "room1" and
holding its sender slot. -/
def demoMgr : ConnectionManager :=
  ((ConnectionManager.init.connect 0 "room1").set_sender 0 "room1").1

/-! ### Claims -/

/-- C3: every operation of the handler-driven system (attach, detach,
acquire, release) preserves the invariant that a channel's recorded
active sender, if present, is a member of the channel's attached set —
no reachable state has the slot pointing at a non-member — and
detaching the connection that holds the slot clears the slot within
that same disconnect call. -/
theorem sender_member_invariant :
    (∀ σ : SysState, Reach σ →
      ∀ ch c, σ.mgr.channel_senders ch = some c → c ∈ σ.mgr.membersOf ch) ∧
    (∀ (m : ConnectionManager) (c : Conn) (ch : Channel),
      m.channel_senders ch = some c → c ∈ m.membersOf ch →
      ∃ m', m.disconnect c ch = .ok m' ∧ m'.channel_senders ch = none) := by
  constructor
  · intro σ hr ch c hc
    exact (reach_inv hr).sender_mem ch c hc
  · intro m c ch hsend hmem
    cases hl : lookupKey ch m.active_connections with
    | none =>
      exact absurd hmem (by simp [ConnectionManager.membersOf, hl])
    | some members =>
      have hcm : c ∈ members := by
        rw [membersOf_eq_of_lookup hl] at hmem
        exact hmem
      refine ⟨m.disconnectRun c ch, ?_, ?_⟩
      · unfold ConnectionManager.disconnectRun
        simp [ConnectionManager.disconnect, hl, hcm]
      · unfold ConnectionManager.disconnectRun
        simp [ConnectionManager.disconnect, hl, hcm, hsend]

/-- Witness for `sender_member_invariant` at a concrete reachable
state. -/
theorem sender_member_invariant_witness :
    ((0 : Conn) ∈ demoMgr.membersOf "room1") ∧
    (∃ m', demoMgr.disconnect 0 "room1" = .ok m' ∧
      m'.channel_senders "room1" = none) := by
  have hreach : Reach ⟨demoMgr, [(0, "room1")]⟩ :=
    Reach.step
      (Reach.step Reach.init
        (Step.attach SysState.init 0 "room1"
          (fun p hp => absurd hp (List.not_mem_nil p))))
      (Step.start ⟨ConnectionManager.init.connect 0 "room1", [(0, "room1")]⟩ 0 "room1"
        (by simp))
  refine ⟨?_, ?_⟩
  · exact sender_member_invariant.1 ⟨demoMgr, [(0, "room1")]⟩ hreach "room1" 0 (by decide)
  · exact sender_member_invariant.2 demoMgr 0 "room1" (by decide) (by decide)

/-- C4: at most one connection holds a channel's sender slot;
`set_sender` while another connection holds the slot fails and leaves
the state unchanged; and `clear_sender` by a connection that is not the
holder leaves the state unchanged. -/
theorem single_sender_arbitration :
    (∀ (m : ConnectionManager) (ch : Channel) (c₁ c₂ : Conn),
      m.channel_senders ch = some c₁ → m.channel_senders ch = some c₂ → c₁ = c₂) ∧
    (∀ (m : ConnectionManager) (ws other : Conn) (ch : Channel),
      m.channel_senders ch = some other → other ≠ ws →
      m.set_sender ws ch = (m, false)) ∧
    (∀ (m : ConnectionManager) (ws : Conn) (ch : Channel),
      m.channel_senders ch ≠ some ws → m.clear_sender ws ch = m) := by
  refine ⟨?_, ?_, ?_⟩
  · intro m ch c₁ c₂ h₁ h₂
    rw [h₁] at h₂
    exact Option.some.inj h₂
  · intro m ws other ch h hne
    simp [ConnectionManager.set_sender, h]
  · intro m ws ch h
    simp [ConnectionManager.clear_sender, h]

/-- Witness for `single_sender_arbitration` on `demoMgr` (sender of
"room1" is connection 0). -/
theorem single_sender_arbitration_witness :
    ((0 : Conn) = 0) ∧
    demoMgr.set_sender 1 "room1" = (demoMgr, false) ∧
    demoMgr.clear_sender 1 "room1" = demoMgr := by
  refine ⟨?_, ?_, ?_⟩
  · exact single_sender_arbitration.1 demoMgr "room1" 0 0 (by decide) (by decide)
  · exact single_sender_arbitration.2.1 demoMgr 1 0 "room1" (by decide) (by decide)
  · exact single_sender_arbitration.2.2 demoMgr 1 "room1" (by decide)

/-- C1 counterexample: in `demoMgr` connection 0 already holds the
sender slot of "room1"; its re-issued `start` is answered `busy`, not
`start_ack`, and the acquire reports failure. -/
theorem start_by_holder_counterexample :
    websocket_control_text (fun _ => false) init_db demoMgr 0 "room1" "start"
      = .ok (init_db, demoMgr, [(0, "busy")]) := by
  rfl

/-- C1 amended: `set_sender` does not special-case the current holder:
whenever the channel already has a recorded sender — including the
requesting connection itself — the acquire returns `False` with the
state unchanged, and the control handler replies `busy`. -/
theorem start_by_holder_busy (fails : Conn → Bool) (db : List String)
    (m : ConnectionManager) (ws : Conn) (ch : Channel)
    (h : m.channel_senders ch = some ws) :
    m.set_sender ws ch = (m, false) ∧
    websocket_control_text fails db m ws ch "start" = .ok (db, m, [(ws, "busy")]) := by
  have hset : m.set_sender ws ch = (m, false) := by
    simp [ConnectionManager.set_sender, h]
  refine ⟨hset, ?_⟩
  have hpre : pyStartsWith "start" "new_channel:" = false := by rfl
  simp [websocket_control_text, hpre, hset]

/-- Witness for `start_by_holder_busy` on `demoMgr`. -/
theorem start_by_holder_busy_witness :
    demoMgr.set_sender 0 "room1" = (demoMgr, false) ∧
    websocket_control_text (fun _ => true) init_db demoMgr 0 "room1" "start"
      = .ok (init_db, demoMgr, [(0, "busy")]) :=
  start_by_holder_busy (fun _ => true) init_db demoMgr 0 "room1" (by decide)

/-- C5: a binary frame from a connection that does not hold the channel's
sender slot is silently dropped — no broadcast, no recipient, manager
unchanged — while a frame from the holder is relayed through
`ConnectionManager.broadcast`. -/
theorem binary_from_nonholder_dropped (fails : Conn → Bool)
    (m : ConnectionManager) (ws : Conn) (ch : Channel) :
    (m.channel_senders ch ≠ some ws →
      websocket_endpoint_bytes fails m ws ch = (m, [])) ∧
    (m.channel_senders ch = some ws →
      websocket_endpoint_bytes fails m ws ch
        = (m, ConnectionManager.broadcast fails m ch ws)) := by
  constructor <;> intro h <;> simp [websocket_endpoint_bytes, h]

/-- Witness for `binary_from_nonholder_dropped`: connection 1 is not the
sender of "room1" in `demoMgr`, connection 0 is. -/
theorem binary_from_nonholder_dropped_witness :
    websocket_endpoint_bytes (fun _ => false) demoMgr 1 "room1" = (demoMgr, []) ∧
    websocket_endpoint_bytes (fun _ => false) demoMgr 0 "room1"
      = (demoMgr, ConnectionManager.broadcast (fun _ => false) demoMgr "room1" 0) := by
  constructor
  · exact (binary_from_nonholder_dropped (fun _ => false) demoMgr 1 "room1").1 (by decide)
  · exact (binary_from_nonholder_dropped (fun _ => false) demoMgr 0 "room1").2 (by decide)

/-- The loop of `ConnectionManager.broadcast` attempts a send to every
non-sender member, recording the per-member outcome, regardless of which
sends fail. -/
theorem broadcast_foldl (fails : Conn → Bool) (sender : Conn) (l : List Conn)
    (acc : List (Conn × Bool)) :
    l.foldl (broadcastStep fails sender) acc
      = acc ++ (l.filter (fun c => c ≠ sender)).map (fun c => (c, !(fails c))) := by
  induction l generalizing acc with
  | nil => simp
  | cons c rest ih =>
    simp only [List.foldl_cons]
    rw [ih]
    by_cases hc : c = sender
    · simp [broadcastStep, hc]
    · cases hf : fails c <;>
        simp [broadcastStep, hc, send_bytes, hf]

/-- Closed form of `ConnectionManager.broadcast`. -/
theorem broadcast_eq (fails : Conn → Bool) (m : ConnectionManager)
    (ch : Channel) (sender : Conn) :
    ConnectionManager.broadcast fails m ch sender
      = ((m.membersOf ch).filter (fun c => c ≠ sender)).map
          (fun c => (c, !(fails c))) := by
  cases hl : lookupKey ch m.active_connections with
  | none => simp [ConnectionManager.broadcast, ConnectionManager.membersOf, hl]
  | some members =>
    simp [ConnectionManager.broadcast, ConnectionManager.membersOf, hl, broadcast_foldl]

/-- C7: a fan-out send failure is isolated: the broadcast relay attempts
delivery to every non-sender member whatever the set of failing
transports is (so one member's failure never removes another from the
attempt list or aborts the loop), every member with a working transport
still receives the frame, and the per-recipient text send
(`send_message`) swallows its failure instead of raising. -/
theorem fanout_failure_isolated :
    (∀ (fails : Conn → Bool) (m : ConnectionManager) (ch : Channel) (sender : Conn),
      (ConnectionManager.broadcast fails m ch sender).map Prod.fst
        = (m.membersOf ch).filter (fun c => c ≠ sender)) ∧
    (∀ (fails : Conn → Bool) (m : ConnectionManager) (ch : Channel) (sender c : Conn),
      c ∈ m.membersOf ch → c ≠ sender → fails c = false →
      (c, true) ∈ ConnectionManager.broadcast fails m ch sender) ∧
    (∀ (fails : Conn → Bool) (message : String) (ws : Conn),
      ConnectionManager.send_message fails message ws = !(fails ws)) := by
  refine ⟨?_, ?_, ?_⟩
  · intro fails m ch sender
    rw [broadcast_eq, List.map_map]
    rw [show (Prod.fst ∘ fun c : Conn => (c, !(fails c))) = id from rfl]
    rw [List.map_id]
  · intro fails m ch sender c hmem hne hok
    rw [broadcast_eq]
    rw [List.mem_map]
    refine ⟨c, ?_, ?_⟩
    · rw [List.mem_filter]
      exact ⟨hmem, by simp [hne]⟩
    · simp [hok]
  · intro fails message ws
    cases h : fails ws <;> simp [ConnectionManager.send_message, send_text, h]

/-- Witness for `fanout_failure_isolated`: in a channel with members
0, 1, 2 where 0 is the sender and 1's transport fails, 2 is still
delivered to. -/
theorem fanout_failure_isolated_witness :
    ((ConnectionManager.broadcast (fun c => c == 1)
        { active_connections := [("room1", [0, 1, 2])],
          channel_senders := fun _ => none } "room1" 0).map Prod.fst
      = ([0, 1, 2].filter (fun c => c ≠ 0))) ∧
    ((2, true) ∈ ConnectionManager.broadcast (fun c => c == 1)
        { active_connections := [("room1", [0, 1, 2])],
          channel_senders := fun _ => none } "room1" 0) ∧
    (ConnectionManager.send_message (fun c => c == 1) "hello" 1 = false) := by
  refine ⟨?_, ?_, ?_⟩
  · exact fanout_failure_isolated.1 (fun c => c == 1)
      { active_connections := [("room1", [0, 1, 2])],
        channel_senders := fun _ => none } "room1" 0
  · exact fanout_failure_isolated.2.1 (fun c => c == 1)
      { active_connections := [("room1", [0, 1, 2])],
        channel_senders := fun _ => none } "room1" 0 2
      (by decide) (by decide) (by decide)
  · exact fanout_failure_isolated.2.2 (fun c => c == 1) "hello" 1

/-- C2: with connections 0 and 1 both attached to "room1", the
`WebSocketDisconnect` exit of the handler runs
`ConnectionManager.disconnect` twice (once in the `except` block, once
in `finally`); the second call's `list.remove` raises `ValueError`
because connection 0 is already gone while the channel entry survives
(connection 1 keeps it non-empty). -/
theorem double_disconnect_valueError :
    websocket_endpoint_cleanup
      { active_connections := [("room1", [0, 1])], channel_senders := fun _ => none }
      0 "room1" ExitKind.wsDisconnect = .error PyError.valueError := by
  rfl

/-- C8 counterexample: the payload "5" decodes as JSON (the number 5),
but `"type" in data` on an int raises `TypeError`, which the handler
does not catch (only `JSONDecodeError` is): the connection faults
instead of silently dropping the message. -/
theorem nonobject_json_faults_counterexample :
    websocket_endpoint_text (fun _ => false)
      { active_connections := [("room1", [0, 1])], channel_senders := fun _ => none }
      0 "room1" "5" (some (PyJson.num 5)) = .error PyError.typeError := by
  rfl

/-- C8 amended: a text payload on the relay endpoint that decodes as a
JSON object with a missing or unrecognized `type`, or that does not
decode as JSON at all, is forwarded to no one, does not fault the
connection, and processing continues; a payload decoding to a non-object
JSON value can instead raise an uncaught `TypeError`. -/
theorem unrecognized_text_dropped (fails : Conn → Bool) (m : ConnectionManager)
    (ws : Conn) (ch : Channel) (text : String) :
    (websocket_endpoint_text fails m ws ch text none = .ok []) ∧
    (∀ fields : List (String × PyJson),
      (∀ j, lookupKey "type" fields = some j →
        (jsonEqStr j "iceCandidate" || jsonEqStr j "offer" || jsonEqStr j "answer")
          = false) →
      websocket_endpoint_text fails m ws ch text (some (.obj fields)) = .ok []) := by
  constructor
  · rfl
  · intro fields hunk
    unfold websocket_endpoint_text
    cases hl : lookupKey "type" fields with
    | none => simp [pyContains, hl]
    | some j =>
      have h := hunk j hl
      rw [Bool.or_eq_false_iff, Bool.or_eq_false_iff] at h
      obtain ⟨⟨h1, h2⟩, h3⟩ := h
      simp [pyContains, pyIndex, hl, h1, h2, h3]

/-- Witness for `unrecognized_text_dropped`: a JSON object with
`type = "chat"` and a non-JSON payload, both on a two-member channel. -/
theorem unrecognized_text_dropped_witness :
    (websocket_endpoint_text (fun _ => false)
      { active_connections := [("room1", [0, 1])], channel_senders := fun _ => none }
      0 "room1" "hello" none = .ok []) ∧
    (websocket_endpoint_text (fun _ => false)
      { active_connections := [("room1", [0, 1])], channel_senders := fun _ => none }
      0 "room1" "x" (some (.obj [("type", PyJson.str "chat")])) = .ok []) := by
  have h := unrecognized_text_dropped (fun _ => false)
    { active_connections := [("room1", [0, 1])], channel_senders := fun _ => none }
    0 "room1" "hello"
  have h2 := unrecognized_text_dropped (fun _ => false)
    { active_connections := [("room1", [0, 1])], channel_senders := fun _ => none }
    0 "room1" "x"
  refine ⟨h.1, ?_⟩
  refine h2.2 [("type", PyJson.str "chat")] ?_
  intro j hj
  have hj' : j = PyJson.str "chat" := by
    simp [lookupKey] at hj
    exact hj.symm
  subst hj'
  rfl

/-- Appending the same payload to every element of a duplicate-free list
pairs each element with it exactly once. -/
theorem countP_pair_eq_one (l : List Conn) (c : Conn) (msg : String)
    (hnd : l.Nodup) (hc : c ∈ l) :
    (l.map (fun c' => (c', msg))).countP (fun p => p = (c, msg)) = 1 := by
  induction l with
  | nil => cases hc
  | cons a rest ih =>
    obtain ⟨hnot, hnd'⟩ := List.nodup_cons.mp hnd
    rcases List.mem_cons.mp hc with rfl | hc'
    · simp only [List.map_cons, List.countP_cons]
      have h0 : (rest.map (fun c' => (c', msg))).countP (fun p => p = (c, msg)) = 0 := by
        rw [List.countP_eq_zero]
        intro p hp
        obtain ⟨c', hcr, rfl⟩ := List.mem_map.mp hp
        simp only [decide_eq_true_eq, Prod.mk.injEq, not_and]
        intro he _
        exact absurd (he ▸ hcr) hnot
      simp [h0]
    · have ha : a ≠ c := fun he => hnot (he ▸ hc')
      simp only [List.map_cons, List.countP_cons]
      simp [ha, ih hnd' hc']

/-- C9: `new_channel:<name>` with a name not yet in the directory
appends it and notifies every attached connection on every channel
exactly once; with an existing name the directory is unchanged and no
connection receives a broadcast. -/
theorem new_channel_broadcast (fails : Conn → Bool) (db : List String)
    (m : ConnectionManager) (ws : Conn) (ch : Channel) (data name : String)
    (hstart : pyStartsWith data "new_channel:" = true)
    (hsplit : pySplit data "new_channel:" = ["", name]) :
    (name ∉ db →
      websocket_control_text fails db m ws ch data
        = .ok (db ++ [name], m,
            m.allConnections.map (fun c => (c, "new_channel:" ++ name)))) ∧
    (name ∈ db →
      websocket_control_text fails db m ws ch data = .ok (db, m, [])) ∧
    (∀ c, m.allConnections.Nodup → c ∈ m.allConnections →
      (m.allConnections.map (fun c' => (c', "new_channel:" ++ name))).countP
          (fun p => p = (c, "new_channel:" ++ name)) = 1) := by
  refine ⟨?_, ?_, ?_⟩
  · intro hfresh
    simp [websocket_control_text, hstart, hsplit, db_insert_channel, hfresh]
  · intro hdup
    simp [websocket_control_text, hstart, hsplit, db_insert_channel, hdup]
  · intro c hnd hc
    exact countP_pair_eq_one m.allConnections c ("new_channel:" ++ name) hnd hc

/-- Witness for `new_channel_broadcast`: command "new_channel:jazz" on
`demoMgr` (one attached connection, 0), against the seeded directory and
against a directory already holding "jazz". -/
theorem new_channel_broadcast_witness :
    (websocket_control_text (fun _ => false) init_db demoMgr 0 "room1" "new_channel:jazz"
      = .ok (init_db ++ ["jazz"], demoMgr,
          demoMgr.allConnections.map (fun c => (c, "new_channel:" ++ "jazz")))) ∧
    (websocket_control_text (fun _ => false) ["jazz"] demoMgr 0 "room1" "new_channel:jazz"
      = .ok (["jazz"], demoMgr, [])) ∧
    ((demoMgr.allConnections.map (fun c' => (c', "new_channel:" ++ "jazz"))).countP
        (fun p => p = (0, "new_channel:" ++ "jazz")) = 1) := by
  have h1 := new_channel_broadcast (fun _ => false) init_db demoMgr 0 "room1"
    "new_channel:jazz" "jazz" (by rfl) (by rfl)
  have h2 := new_channel_broadcast (fun _ => false) ["jazz"] demoMgr 0 "room1"
    "new_channel:jazz" "jazz" (by rfl) (by rfl)
  exact ⟨h1.1 (by decide), h2.2.1 (by decide), h1.2.2 0 (by decide) (by decide)⟩

/-- C10 counterexample: the directory enumeration in the initial state —
before any client has connected or sent any command — is not empty: the
seeded channel "Default" is already present without any explicit
creation request. -/
theorem initial_directory_counterexample :
    get_channels init_db = ["Default"] ∧ get_channels init_db ≠ [] :=
  ⟨rfl, by decide⟩

/-- C10 amended: the initial directory holds exactly the seeded row
"Default"; from then on every control command leaves the directory
either unchanged or extended by the single explicitly requested name —
entries are never removed (the old directory is always a prefix of the
new one), and growth happens only on a `new_channel:` command. -/
theorem directory_append_only (fails : Conn → Bool) (db : List String)
    (m : ConnectionManager) (ws : Conn) (ch : Channel) (data : String)
    (db' : List String) (m' : ConnectionManager) (sends : List (Conn × String))
    (h : websocket_control_text fails db m ws ch data = .ok (db', m', sends)) :
    get_channels init_db = ["Default"] ∧
    List.IsPrefix db db' ∧
    (db' ≠ db →
      pyStartsWith data "new_channel:" = true ∧
      db' = db ++ [(pySplit data "new_channel:").getD 1 ""]) := by
  have done : db = db' →
      get_channels init_db = ["Default"] ∧
      List.IsPrefix db db' ∧
      (db' ≠ db →
        pyStartsWith data "new_channel:" = true ∧
        db' = db ++ [(pySplit data "new_channel:").getD 1 ""]) := by
    intro he
    subst he
    exact ⟨rfl, List.prefix_refl db, fun hne => absurd rfl hne⟩
  unfold websocket_control_text at h
  by_cases hb : pyStartsWith data "new_channel:" = true
  · rw [if_pos hb] at h
    by_cases hd : ((pySplit data "new_channel:").getD 1 "") ∈ db
    · simp only [db_insert_channel, if_pos hd, Except.ok.injEq, Prod.mk.injEq] at h
      exact done h.1
    · simp only [db_insert_channel, if_neg hd, Except.ok.injEq, Prod.mk.injEq] at h
      refine ⟨rfl, ?_, fun _ => ⟨hb, h.1.symm⟩⟩
      rw [← h.1]
      exact ⟨[(pySplit data "new_channel:").getD 1 ""], rfl⟩
  · rw [if_neg hb] at h
    by_cases h1 : data = "start"
    · rw [if_pos h1] at h
      cases hp : m.set_sender ws ch with
      | mk m2 b =>
        rw [hp] at h
        cases b <;>
          simp only [Except.ok.injEq, Prod.mk.injEq] at h <;>
          exact done h.1
    · rw [if_neg h1] at h
      by_cases h2 : data = "stop"
      · rw [if_pos h2] at h
        simp only [Except.ok.injEq, Prod.mk.injEq] at h
        exact done h.1
      · rw [if_neg h2] at h
        by_cases h3 : data = "join_channel"
        · rw [if_pos h3] at h
          cases hl : lookupKey ch m.active_connections with
          | none =>
            rw [hl] at h
            exact absurd h (by simp)
          | some members =>
            rw [hl] at h
            simp only [Except.ok.injEq, Prod.mk.injEq] at h
            exact done h.1
        · rw [if_neg h3] at h
          simp only [Except.ok.injEq, Prod.mk.injEq] at h
          exact done h.1

/-- Witness for `directory_append_only` on the command
"new_channel:jazz" from `demoMgr`'s connection 0. -/
theorem directory_append_only_witness :
    get_channels init_db = ["Default"] ∧
    List.IsPrefix init_db (init_db ++ ["jazz"]) ∧
    (init_db ++ ["jazz"] ≠ init_db →
      pyStartsWith "new_channel:jazz" "new_channel:" = true ∧
      init_db ++ ["jazz"]
        = init_db ++ [(pySplit "new_channel:jazz" "new_channel:").getD 1 ""]) :=
  directory_append_only (fun _ => false) init_db demoMgr 0 "room1" "new_channel:jazz"
    (init_db ++ ["jazz"]) demoMgr
    (demoMgr.allConnections.map (fun c => (c, "new_channel:" ++ "jazz"))) (by rfl)

/-- A second connection, 1, attached to "room1" next to the sender 0. -/
def demoMgr2 : ConnectionManager := demoMgr.connect 1 "room1"

/-- C6: on the unified control endpoint, a structured text message whose
`type` is offer, answer or iceCandidate, sent by any attached member and
under any sender-slot state, is forwarded verbatim to every other member
of the sender's channel. -/
theorem signaling_forwarded_to_members (fails : Conn → Bool) (db : List String)
    (m : ConnectionManager) (ws : Conn) (ch : Channel) (data : String)
    (fields : List (String × PyJson)) (t : String) (members : List Conn)
    (hne1 : pyStartsWith data "new_channel:" = false)
    (hne2 : data ≠ "start") (hne3 : data ≠ "stop") (hne4 : data ≠ "join_channel")
    (htype : lookupKey "type" fields = some (PyJson.str t))
    (ht : t = "offer" ∨ t = "answer" ∨ t = "iceCandidate")
    (hmem : lookupKey ch m.active_connections = some members) :
    unified_control_text fails db m ws ch data (some (PyJson.obj fields))
      = .ok (db, m,
          (members.filter (fun c => c ≠ ws)).map (fun c => (c, data))) := by
  have hb : (pyStartsWith data "new_channel:" || data = "start" || data = "stop"
      || data = "join_channel") = false := by
    simp [hne1, hne2, hne3, hne4]
  unfold unified_control_text
  rw [if_neg (by rw [hb]; simp)]
  unfold websocket_endpoint_text
  simp only [pyContains, htype, pyIndex, Option.isSome_some, if_true]
  rcases ht with h | h | h <;> subst h <;>
    simp [jsonEqStr, hmem, Except.map]

/-- Witness for `signaling_forwarded_to_members`: in `demoMgr2`
connection 1 is attached to "room1" but connection 0 holds the sender
slot; 1's offer message is still forwarded, to 0 exactly. -/
theorem signaling_forwarded_to_members_witness :
    unified_control_text (fun _ => false) init_db demoMgr2 1 "room1"
      "\x7b\"type\": \"offer\"\x7d" (some (PyJson.obj [("type", PyJson.str "offer")]))
      = .ok (init_db, demoMgr2,
          (([0, 1] : List Conn).filter (fun c => c ≠ 1)).map
            (fun c => (c, "\x7b\"type\": \"offer\"\x7d"))) :=
  signaling_forwarded_to_members (fun _ => false) init_db demoMgr2 1 "room1"
    "\x7b\"type\": \"offer\"\x7d" [("type", PyJson.str "offer")] "offer" [0, 1]
    (by rfl) (by decide) (by decide) (by decide) (by rfl) (Or.inl rfl) (by decide)

end WalkieTalkie
